import Mathlib

set_option maxHeartbeats 1000000

/-!
Verification of the vcluster cluster-operation engine against its
natural-language specification.  The Go sources under `vclusterops/` are
shallowly embedded as executable Lean definitions: Go maps become
association lists, Go `error` values become `Option String`, per-host
result maps become lists of host/result pairs processed in iteration
order, and randomness is passed in as an explicit argument.
-/

/-- ResultStatus is the data type for the status of ClusterOpResult and
HostHTTPResult (`SUCCESS = 0`, `FAILURE = 1`, `EXCEPTION = 2`). -/
inductive ResultStatus where
  | SUCCESS
  | FAILURE
  | EXCEPTION
deriving DecidableEq, Repr

/-- Integer value of a `ResultStatus`, as the Go constant block assigns it. -/
def ResultStatus.toInt : ResultStatus → Nat
  | .SUCCESS => 0
  | .FAILURE => 1
  | .EXCEPTION => 2

def SuccessCode : Nat := 200
def MultipleChoiceCode : Nat := 300
def UnauthorizedCode : Nat := 401
def InternalErrorCode : Nat := 500

/-- The two recognized credential failure messages
(`wrongCredentialErrMsg` in the source). -/
def wrongCredentialErrMsg : List String := ["Wrong password", "Wrong certificate"]

/-- HostHTTPResult stores the result of one host request: status, HTTP
status code, host address, response content, and the error (if the
response ended in a failure scenario).  Go `error` is `Option String`. -/
structure HostHTTPResult where
  status : ResultStatus
  statusCode : Nat
  host : String
  content : String
  err : Option String
deriving DecidableEq, Repr

/-- Go `isPassing`: the result carries no error (Go `err == nil`). -/
def HostHTTPResult.isPassing (r : HostHTTPResult) : Bool :=
  r.err.isNone

/-- Go `IsUnauthorizedRequest`: status code 401. -/
def HostHTTPResult.isUnauthorizedRequest (r : HostHTTPResult) : Bool :=
  r.statusCode == UnauthorizedCode

/-- Go `IsInternalError`: status code 500. -/
def HostHTTPResult.isInternalError (r : HostHTTPResult) : Bool :=
  r.statusCode == InternalErrorCode

/-- Go `IsHTTPRunning`: a passing, unauthorized, or internal-error response
all count as evidence that an HTTP server is up. -/
def HostHTTPResult.isHTTPRunning (r : HostHTTPResult) : Bool :=
  if r.isPassing || r.isUnauthorizedRequest || r.isInternalError then true
  else false

/-- Substring containment over character lists (Go `strings.Contains`). -/
def containsSub : List Char → List Char → Bool
  | [], pat => pat.isEmpty
  | c :: rest, pat => pat.isPrefixOf (c :: rest) || containsSub rest pat

/-- Substring containment on strings (Go `strings.Contains`). -/
def containsSubstring (s pat : String) : Bool :=
  containsSub s.toList pat.toList

/-- Rendering of the unexported `err` field under the `%v` verb.  Since
the field is unexported, `fmt` cannot invoke `Error()` on it (reflection
refuses to interface unexported fields); a `nil` error prints `<nil>`,
and a non-nil one is unwrapped to its concrete pointer, which at nesting
depth above zero prints as a hex address — never the message.  The
address is nondeterministic per execution, so it is passed in as an
argument, like the random draws elsewhere in this file. -/
def renderError (errAddr : String) : Option String → String
  | none => "<nil>"
  | some _ => errAddr

/-- Rendering of a `*HostHTTPResult` under the `%v` verb (Go
`fmt.Sprintf` of a struct pointer): ampersand, then the field values
separated by spaces inside braces, the non-nil error printing as the
hex pointer address `errAddr`. -/
def renderHostHTTPResult (errAddr : String) (r : HostHTTPResult) : String :=
  "&\x7b" ++ toString r.status.toInt ++ " " ++ toString r.statusCode ++ " " ++
    r.host ++ " " ++ r.content ++ " " ++ renderError errAddr r.err ++ "\x7d"

/-- Go `IsPasswordandCertificateError`: a 401 result whose rendered form
contains one of the known credential messages.  `errAddr` is the hex
address the non-nil error field renders as in this execution. -/
def HostHTTPResult.isPasswordandCertificateError (errAddr : String)
    (r : HostHTTPResult) : Bool :=
  if !r.isUnauthorizedRequest then false
  else wrongCredentialErrMsg.any
    (fun msg => containsSubstring (renderHostHTTPResult errAddr r) msg)

/-!
The plan engine (`cluster_op_engine.go`).  `VClusterOpEngine.run` walks
the instruction list; for each operation it calls `prepare`, then —
unless `skipExecute` was set during prepare — `loadCertsIfNeeded` and
`execute`, then `finalize`, wrapping and returning the first error.  We
record each method invocation as an event and model one operation by the
outcomes its methods would produce.
-/

/-- One engine-visible method invocation on a named operation. -/
inductive EngineEvent where
  | prepareCall (name : String)
  | loadCertsCall (name : String)
  | executeCall (name : String)
  | finalizeCall (name : String)
deriving DecidableEq, Repr

/-- Behaviour of one `clusterOp` as the engine observes it: the outcome
of each lifecycle method and the value of `skipExecute` after prepare. -/
structure ClusterOpSpec where
  name : String
  prepareErr : Option String
  skipExecute : Bool
  loadCertsErr : Option String
  executeErr : Option String
  finalizeErr : Option String
deriving DecidableEq, Repr

/-- One iteration of the loop body of `VClusterOpEngine.run`: the events
it emits and the (wrapped) error it returns, if any. -/
def stepOp (op : ClusterOpSpec) : List EngineEvent × Option String :=
  match op.prepareErr with
  | some e => ([.prepareCall op.name],
      some ("prepare " ++ op.name ++ " failed, details: " ++ e))
  | none =>
    if op.skipExecute then
      match op.finalizeErr with
      | some e => ([.prepareCall op.name, .finalizeCall op.name],
          some ("finalize failed " ++ e))
      | none => ([.prepareCall op.name, .finalizeCall op.name], none)
    else
      match op.loadCertsErr with
      | some e => ([.prepareCall op.name, .loadCertsCall op.name],
          some ("loadCertsIfNeeded for " ++ op.name ++ " failed, details: " ++ e))
      | none =>
        match op.executeErr with
        | some e => ([.prepareCall op.name, .loadCertsCall op.name, .executeCall op.name],
            some ("execute " ++ op.name ++ " failed, details: " ++ e))
        | none =>
          match op.finalizeErr with
          | some e => ([.prepareCall op.name, .loadCertsCall op.name, .executeCall op.name,
                .finalizeCall op.name],
              some ("finalize failed " ++ e))
          | none => ([.prepareCall op.name, .loadCertsCall op.name, .executeCall op.name,
                .finalizeCall op.name], none)

/-- Go `VClusterOpEngine.run`: process the instructions in order, stopping
at (and returning) the first error. -/
def engineRun : List ClusterOpSpec → List EngineEvent × Option String
  | [] => ([], none)
  | op :: rest =>
    match stepOp op with
    | (evs, some e) => (evs, some e)
    | (evs, none) =>
      let r := engineRun rest
      (evs ++ r.1, r.2)

/-!
Coordination model (`vcluster_database.go`): `VCoordinationDatabase`
holds an ordered host list and a host-address-to-node mapping.  The Go
map `vHostNodeMap` is embedded as an association list keyed by address.
Node fields not touched by the verified operations (paths, ports, state)
are omitted from the node record.
-/

/-- VCoordinationNode: the per-node record, restricted to the fields the
verified operations read or write. -/
structure VCoordinationNode where
  address : String
  name : String
  subcluster : String
deriving DecidableEq, Repr

/-- VCoordinationDatabase: database name, host-address keyed node map,
and insertion-ordered host list. -/
structure VCoordinationDatabase where
  name : String
  hostNodeMap : List (String × VCoordinationNode)
  hostList : List String
deriving DecidableEq, Repr

/-- Modelled from the spec: `util.SliceDiff`, the set difference used for
upload-target selection (elements of `a` that do not occur in `b`,
keeping the order of `a`).  The function body lives in the `util`
package, outside the provided sources. -/
def sliceDiff (a b : List String) : List String :=
  a.filter (fun x => !b.contains x)

/-- The test `op.vdb == nil || len(op.vdb.HostNodeMap) == 0` guarding the
no-node-info branch of `NMAUploadConfigOp.prepare`. -/
def vdbNodeInfoMissing (vdb : Option (List (String × VCoordinationNode))) : Bool :=
  match vdb with
  | none => true
  | some m => m.isEmpty

/-- Outcome of `NMAUploadConfigOp.prepare` as far as the claims observe
it: the selected `op.hosts`, the `op.skipExecute` flag, and the returned
error. -/
structure UploadPrepareOutcome where
  hosts : List String
  skipExecute : Bool
  err : Option String
deriving DecidableEq, Repr

/-- Go `NMAUploadConfigOp.prepare`.  `vdb` is `op.vdb` (a Go nil pointer is
`none`); `sourceConfigHost` distinguishes a nil slice (`none`) from a
non-nil one; `updateCatalogPathsErr` stands for the outcome of
`updateCatalogPathMapFromCatalogEditor`, whose body lives outside the
provided sources and which cannot change `op.hosts` or `op.skipExecute`.
`setupRequestBody` (marshalling strings) and `setupClusterHTTPRequest`
never fail and are not modelled here. -/
def nmaUploadConfigPrepare
    (vdb : Option (List (String × VCoordinationNode)))
    (sourceConfigHost : Option (List String))
    (destHosts : List String)
    (hostsWithLatestCatalog : List String)
    (updateCatalogPathsErr : Option String) : UploadPrepareOutcome :=
  if vdbNodeInfoMissing vdb then
    match sourceConfigHost with
    | none =>
      if hostsWithLatestCatalog.isEmpty then
        ⟨[], false, some "could not find at least one host with the latest catalog"⟩
      else
        let hostsNeedCatalogSync := sliceDiff destHosts hostsWithLatestCatalog
        if hostsNeedCatalogSync.isEmpty then
          ⟨hostsNeedCatalogSync, true, none⟩
        else
          match updateCatalogPathsErr with
          | some e => ⟨hostsNeedCatalogSync, false,
              some ("failed to get catalog paths from catalog editor: " ++ e)⟩
          | none => ⟨hostsNeedCatalogSync, false, none⟩
    | some src =>
      let hosts := sliceDiff destHosts src
      match updateCatalogPathsErr with
      | some e => ⟨hosts, false,
          some ("failed to get catalog paths from catalog editor: " ++ e)⟩
      | none => ⟨hosts, false, none⟩
  else
    ⟨destHosts, false, none⟩

/-!
Per-host result processing.  Go iterates over the result map; we process
a list of host/result pairs in iteration order.  `errors.Join` of a run
of errors is represented by the list of the joined messages, with the
empty list standing for a nil joined error.
-/

/-- Error message appended by `NMADownloadConfigOp.processResult` when no
host produced a passing result. -/
def noPassingHostErr : String := "could not find a host with a passing result"

/-- Go `NMADownloadConfigOp.processResult`: walk the results; on the first
passing one, store its body in the shared `fileContent` and return nil;
otherwise join every per-host error plus a could-not-find error.  Returns
the final `fileContent` value and the joined error messages (empty list
for a nil error).  `allErrs` is the running joined error. -/
def downloadConfigProcessResult (fileContent : String) :
    List (String × HostHTTPResult) → List String → String × List String
  | [], allErrs => (fileContent, allErrs ++ [noPassingHostErr])
  | (_, r) :: rest, allErrs =>
    if r.isPassing then (r.content, [])
    else downloadConfigProcessResult fileContent rest (allErrs ++ r.err.toList)

/-- Go `nmaSpreadSecurityOp.processResult`: per-host errors of failing
results are joined into `allErrs`; a passing result whose body fails to
parse returns the join immediately; but the loop ends with `return nil`,
so the accumulated `allErrs` is dropped.  `parse` stands for
`parseAndCheckMapResponse`; the returned `Option` is the final error
(`none` for nil). -/
def nmaSpreadSecurityProcessResult (parse : String → Option String) :
    List (String × HostHTTPResult) → List String → Option (List String)
  | [], _ => none
  | (_, r) :: rest, allErrs =>
    if r.isPassing then
      match parse r.content with
      | some e => some (allErrs ++ [e])
      | none => nmaSpreadSecurityProcessResult parse rest allErrs
    else nmaSpreadSecurityProcessResult parse rest (allErrs ++ r.err.toList)

/-- A subcluster description parsed from the check-subcluster response
(`scInfo` in the source). -/
structure ScInfo where
  scName : String
  isSecondary : Bool
  ctlSetSize : Int
deriving DecidableEq, Repr

/-- Go `httpsCheckSubclusterOp.processResult`: an unauthorized result
returns its error at once; other failing results record their error and
continue; a passing result is parsed and validated against the expected
subcluster name, secondary flag and control set size, returning nil on
success.  `errAcc` is the loop variable `err`, returned when the loop
ends. -/
def httpsCheckSubclusterProcessResult (opName scName : String) (isSecondary : Bool)
    (ctlSetSize : Int) (parse : String → Except String ScInfo) :
    List (String × HostHTTPResult) → Option String → Option String
  | [], errAcc => errAcc
  | (host, r) :: rest, errAcc =>
    if r.isUnauthorizedRequest then r.err
    else if !r.isPassing then
      httpsCheckSubclusterProcessResult opName scName isSecondary ctlSetSize parse rest r.err
    else
      match parse r.content with
      | .error e => some ("[" ++ opName ++ "] fail to parse result on host " ++ host ++
          ", details: " ++ e)
      | .ok info =>
        if info.scName ≠ scName then
          some ("[" ++ opName ++ "] new subcluster name should be " ++ scName ++
            " but got " ++ info.scName)
        else if info.isSecondary ≠ isSecondary then
          (if isSecondary then
            some ("[" ++ opName ++
              "] new subcluster should be a secondary subcluster but got a primary subcluster")
          else
            some ("[" ++ opName ++
              "] new subcluster should be a primary subcluster but got a secondary subcluster"))
        else if info.ctlSetSize ≠ ctlSetSize then
          some ("[" ++ opName ++ "] new subcluster should have control set size as " ++
            toString ctlSetSize ++ " but got " ++ toString info.ctlSetSize)
        else none

/-- Go `httpsSandboxingOp.processResult`: an unauthorized result returns its
error at once; other failing results are joined into `allErrs`; the
first passing result is parsed and the function returns (nil on parse
success); if the loop ends, the joined `allErrs` is returned (empty list
= nil). -/
def httpsSandboxingProcessResult (opName : String) (parse : String → Option String) :
    List (String × HostHTTPResult) → List String → Option (List String)
  | [], allErrs => if allErrs.isEmpty then none else some allErrs
  | (host, r) :: rest, allErrs =>
    if r.isUnauthorizedRequest then r.err.map (fun e => [e])
    else if !r.isPassing then
      httpsSandboxingProcessResult opName parse rest (allErrs ++ r.err.toList)
    else
      match parse r.content with
      | some e => some ["[" ++ opName ++ "] fail to parse result on host " ++ host ++
          ", details: " ++ e]
      | none => none

/-!
Spread key generation (`nmaSpreadSecurityOp`).  `crypto/rand.Read` and
`math/rand.Intn` are modelled by passing the random draws in as
arguments: 32 random bytes for the spread key, four random indices below
36 for the key id.
-/

/-- The lowercase hexadecimal digits used by Go `hex.EncodeToString`. -/
def hexDigitChars : List Char := "0123456789abcdef".toList

/-- Go `hex.EncodeToString` of one byte: high nibble then low nibble. -/
def hexEncodeByte (b : Fin 256) : List Char :=
  [hexDigitChars.getD (b.val / 16) '0', hexDigitChars.getD (b.val % 16) '0']

/-- Go `hex.EncodeToString` of a byte slice. -/
def hexEncodeToString (bytes : List (Fin 256)) : String :=
  ⟨(bytes.map hexEncodeByte).flatten⟩

/-- Go `nmaSpreadSecurityOp.generateVerticaSpreadKey`: read
`spreadKeySize = 32` random bytes and hex-encode them. -/
def generateVerticaSpreadKey (randomBytes : Fin 32 → Fin 256) : String :=
  hexEncodeToString (List.ofFn randomBytes)

/-- Go `availChars` of `generateKeyID`: lowercase letters then digits. -/
def availChars : List Char := "abcdefghijklmnopqrstuvwxyz0123456789".toList

/-- Go `nmaSpreadSecurityOp.generateKeyID`: `keyLength = 4` characters, each
chosen from `availChars` by a random index below `len(availChars) = 36`. -/
def generateKeyID (picks : Fin 4 → Fin 36) : String :=
  ⟨(List.ofFn picks).map (fun i => availChars.getD i.val 'a')⟩

/-!
Request-body setup with log capture.  Each embedded function returns,
next to its result, the list of strings handed to `log.Info` calls, so
that redaction properties can be stated about the logs.
-/

/-- JSON encoding of `nmaSpreadSecurityPayload` (`json.Marshal`); content
escaping is irrelevant to the verified property. -/
def marshalSpreadSecurityPayload (catalogPath securityDetails : String) : String :=
  "\x7b\"catalog_path\":\"" ++ catalogPath ++ "\",\"spread_security_details\":\"" ++
    securityDetails ++ "\"\x7d"

/-- Loop body of `nmaSpreadSecurityOp.setupRequestBody`: per host, look
up the catalog path, build the payload, and log — first the payload
fields including the security details, then the marshalled payload. -/
def spreadSecuritySetupLoop (securityDetails : String)
    (getCatalogPath : String → String) (catalogPathMap : List (String × String)) :
    List String → List (String × String) → List String →
      Except String (List (String × String)) × List String
  | [], bodyMap, logs => (.ok bodyMap, logs)
  | host :: rest, bodyMap, logs =>
    match catalogPathMap.lookup host with
    | none => (.error ("could not find host " ++ host ++ " in catalogPathMap"), logs)
    | some fullCatalogPath =>
      let payload := marshalSpreadSecurityPayload (getCatalogPath fullCatalogPath)
        securityDetails
      let logs1 := logs ++ ["payload setup catalogPath=" ++ getCatalogPath fullCatalogPath ++
        " securityDetails=" ++ securityDetails]
      let logs2 := logs1 ++ ["mashaled payload payload=" ++ payload]
      spreadSecuritySetupLoop securityDetails getCatalogPath catalogPathMap rest
        (bodyMap ++ [(host, payload)]) logs2

/-- Go `nmaSpreadSecurityOp.setupRequestBody`: fail on an empty host list,
otherwise run the per-host loop.  `securityDetails` is the generated
spread key material; `getCatalogPath` stands for the helper of the same
name, whose body lives outside the provided sources. -/
def nmaSpreadSecuritySetupRequestBody (opName securityDetails : String)
    (getCatalogPath : String → String) (hosts : List String)
    (catalogPathMap : List (String × String)) :
    Except String (List (String × String)) × List String :=
  if hosts.isEmpty then (.error ("[" ++ opName ++ "] no hosts specified"), [])
  else spreadSecuritySetupLoop securityDetails getCatalogPath catalogPathMap hosts [] []

/-- The hard-coded spread-key payload appended by
`NMAUploadConfigOp.setupRequestBody` in `encryptSpread` mode. -/
def spreadKeyPayload : String :=
  "\x7b\"y17b\": \"26169b33c812e9d1db67ec1dd3046a23219aa1e32840a105322de2dd06752279\"\x7d"

/-- Go `NMAUploadConfigOp.setupRequestBody`: in `encryptSpread` mode the
spread-key payload is appended to the file content and the modified
content is logged; then one request body per host is built from the
catalog path map (a missing key yields the Go zero value).  Returns the
new file content, the per-host body map, and the logged strings. -/
def nmaUploadConfigSetupRequestBody (hosts : List String)
    (catalogPathMap : List (String × String)) (fileContent : String)
    (encryptSpread : Bool) : String × List (String × String) × List String :=
  let newContent :=
    if encryptSpread then
      fileContent ++ "\n# SPILLY added by me\n# VSpreadKey: " ++ spreadKeyPayload
    else fileContent
  let logs :=
    if encryptSpread then ["modified spread conf contents=" ++ newContent] else []
  let bodies := hosts.map (fun host =>
    (host, "\x7b\"catalog_path\":\"" ++ (catalogPathMap.lookup host).getD "" ++
      "\",\"content\":\"" ++ newContent ++ "\"\x7d"))
  (newContent, bodies, logs)

/-!
`VCoordinationDatabase.addNode` and `addHosts`.  `addNode` refuses a
duplicate address (leaving the vdb untouched) and otherwise inserts the
node into the map and appends the address to the host list; `addHosts`
generates a fresh node name per host and folds `addNode` over the list,
stopping at the first error with the vdb updated only for the hosts
already processed, as the Go pointer receiver does.
-/

/-- Go `VCoordinationDatabase.addNode`: returns the updated vdb and the
error, the vdb being unchanged when an error is reported. -/
def VCoordinationDatabase.addNode (vdb : VCoordinationDatabase)
    (vnode : VCoordinationNode) : VCoordinationDatabase × Option String :=
  if vnode.address ∈ vdb.hostNodeMap.map Prod.fst then
    (vdb, some ("host " ++ vnode.address ++ " has already been in the VDB HostList"))
  else
    ({ vdb with
        hostNodeMap := vdb.hostNodeMap ++ [(vnode.address, vnode)],
        hostList := vdb.hostList ++ [vnode.address] }, none)

/-- Go `genNodeNameToHostMap`: node name to host address, from the node
map. -/
def VCoordinationDatabase.genNodeNameToHostMap (vdb : VCoordinationDatabase) :
    List (String × String) :=
  vdb.hostNodeMap.map (fun p => (p.2.name, p.1))

/-- Zero-padding to four digits (`%04d`). -/
def pad4 (n : Nat) : String :=
  if n < 10 then "000" ++ toString n
  else if n < 100 then "00" ++ toString n
  else if n < 1000 then "0" ++ toString n
  else toString n

/-- Modelled from the spec: `util.GenVNodeName` (outside the provided
sources) generates a node name of the form `v_<db>_node%04d`, trying
successive ordinals until one not yet in use is found, giving up after
`hostCount` attempts. -/
def genVNodeName (vnodes : List (String × String)) (dbName : String)
    (hostCount : Nat) : Option String :=
  (List.range hostCount).findSome? (fun i =>
    let nodeName := "v_" ++ dbName ++ "_node" ++ pad4 (i + 1)
    if (vnodes.lookup nodeName).isSome then none else some nodeName)

/-- Loop of `VCoordinationDatabase.addHosts`: per host, generate a name,
build the node (`setFromNodeConfig` sets its address, name and
subcluster) and `addNode` it, recording the new name. -/
def addHostsLoop (scName dbName : String) (totalHostCount : Nat) :
    VCoordinationDatabase → List (String × String) → List String →
      VCoordinationDatabase × Option String
  | vdb, _, [] => (vdb, none)
  | vdb, nodeNameToHost, host :: rest =>
    match genVNodeName nodeNameToHost dbName totalHostCount with
    | none => (vdb, some ("could not generate a vnode name for " ++ host))
    | some nodeName =>
      match vdb.addNode ⟨host, nodeName, scName⟩ with
      | (vdb2, some e) => (vdb2, some e)
      | (vdb2, none) =>
        addHostsLoop scName dbName totalHostCount vdb2
          (nodeNameToHost ++ [(nodeName, host)]) rest

/-- Go `VCoordinationDatabase.addHosts`. -/
def VCoordinationDatabase.addHosts (vdb : VCoordinationDatabase)
    (hosts : List String) (scName : String) : VCoordinationDatabase × Option String :=
  addHostsLoop scName vdb.name (hosts.length + vdb.hostList.length) vdb
    vdb.genNodeNameToHostMap hosts

/-- The vdb address invariant: the ordered host list and the key set of
the node map contain exactly the same addresses, with no duplicates on
either side. -/
def vdbAddressInvariant (vdb : VCoordinationDatabase) : Prop :=
  vdb.hostList.Nodup ∧ (vdb.hostNodeMap.map Prod.fst).Nodup ∧
    ∀ a, a ∈ vdb.hostList ↔ a ∈ vdb.hostNodeMap.map Prod.fst

/-!
Theorems.  Each claim theorem is stated over the definitions above;
helper lemmas precede the claim theorems that use them.
-/

/-- C8: `HostHTTPResult.IsPasswordandCertificateError` returns true if and
only if the status code is 401 and the rendered result matches one of the
known credential messages (Wrong password / Wrong certificate).  The
rendering prints the unexported error field as a hex pointer address
`errAddr`, never its message, so only the host and content text can
produce a match; the equivalence holds for every such address. -/
theorem isPasswordandCertificateError_iff (errAddr : String) (r : HostHTTPResult) :
    HostHTTPResult.isPasswordandCertificateError errAddr r = true ↔
      (r.statusCode = 401 ∧
        (containsSubstring (renderHostHTTPResult errAddr r) "Wrong password" = true ∨
         containsSubstring (renderHostHTTPResult errAddr r) "Wrong certificate" = true)) := by
  simp [HostHTTPResult.isPasswordandCertificateError, HostHTTPResult.isUnauthorizedRequest,
    wrongCredentialErrMsg, UnauthorizedCode, List.any]

/-- C10: `HostHTTPResult.IsHTTPRunning` returns true if and only if the
result is passing (no error) or its status code is 401 or 500: an
unauthorized or internal-error response is also treated as evidence that
a database is running. -/
theorem isHTTPRunning_iff (r : HostHTTPResult) :
    r.isHTTPRunning = true ↔
      (r.err = none ∨ r.statusCode = 401 ∨ r.statusCode = 500) := by
  simp [HostHTTPResult.isHTTPRunning, HostHTTPResult.isPassing,
    HostHTTPResult.isUnauthorizedRequest, HostHTTPResult.isInternalError,
    UnauthorizedCode, InternalErrorCode, Option.isNone_iff_eq_none, or_assoc]

theorem engineRun_append (pre rest : List ClusterOpSpec)
    (hpre : ∀ p ∈ pre, (stepOp p).2 = none) :
    engineRun (pre ++ rest)
      = ((engineRun pre).1 ++ (engineRun rest).1, (engineRun rest).2) := by
  induction pre with
  | nil => simp [engineRun]
  | cons p pre ih =>
    have hp : (stepOp p).2 = none := hpre p (by simp)
    have hrest : ∀ q ∈ pre, (stepOp q).2 = none := fun q hq => hpre q (by simp [hq])
    rcases hs : stepOp p with ⟨evs, err⟩
    rw [hs] at hp
    simp at hp
    subst hp
    simp [engineRun, hs, ih hrest]

/-- C1: lifecycle discipline of `VClusterOpEngine.run`.  For a plan
`pre ++ op :: post` in which every operation of `pre` succeeds: if the
processing of `op` fails, run returns that error at once and no method of
any operation in `post` is invoked; if it succeeds, the remaining
operations follow.  Moreover `op` itself is processed exactly once, in
order: prepare, then (unless `skipExecute`) cert loading and execute,
then finalize; with `skipExecute` set, cert loading and execute are both
skipped; and each failing call stops the remaining calls of `op`, the
engine returning the wrapped error of the failing call. -/
theorem engine_run_lifecycle (pre post : List ClusterOpSpec) (op : ClusterOpSpec)
    (hpre : ∀ p ∈ pre, (stepOp p).2 = none) :
    (∀ e, (stepOp op).2 = some e →
        engineRun (pre ++ op :: post) = ((engineRun pre).1 ++ (stepOp op).1, some e)) ∧
    ((stepOp op).2 = none →
        engineRun (pre ++ op :: post)
          = ((engineRun pre).1 ++ (stepOp op).1 ++ (engineRun post).1, (engineRun post).2)) ∧
    (op.prepareErr = none → op.skipExecute = false → op.loadCertsErr = none →
      op.executeErr = none →
        (stepOp op).1 = [.prepareCall op.name, .loadCertsCall op.name, .executeCall op.name,
          .finalizeCall op.name]) ∧
    (op.prepareErr = none → op.skipExecute = true →
        (stepOp op).1 = [.prepareCall op.name, .finalizeCall op.name]) ∧
    (∀ e, op.prepareErr = some e →
        stepOp op = ([.prepareCall op.name],
          some ("prepare " ++ op.name ++ " failed, details: " ++ e))) ∧
    (op.prepareErr = none → op.skipExecute = false → ∀ e, op.loadCertsErr = some e →
        stepOp op = ([.prepareCall op.name, .loadCertsCall op.name],
          some ("loadCertsIfNeeded for " ++ op.name ++ " failed, details: " ++ e))) ∧
    (op.prepareErr = none → op.skipExecute = false → op.loadCertsErr = none →
      ∀ e, op.executeErr = some e →
        stepOp op = ([.prepareCall op.name, .loadCertsCall op.name, .executeCall op.name],
          some ("execute " ++ op.name ++ " failed, details: " ++ e))) := by
  refine ⟨?_, ?_, ?_, ?_, ?_, ?_, ?_⟩
  · intro e he
    rcases hs : stepOp op with ⟨evs, err⟩
    rw [hs] at he
    simp at he
    subst he
    have := engineRun_append pre (op :: post) hpre
    simp [engineRun, hs] at this
    simp [this, hs]
  · intro he
    rcases hs : stepOp op with ⟨evs, err⟩
    rw [hs] at he
    simp at he
    subst he
    have := engineRun_append pre (op :: post) hpre
    simp [engineRun, hs] at this
    simp [this, hs]
  · intro h1 h2 h3 h4
    simp [stepOp, h1, h2, h3, h4]
    cases op.finalizeErr <;> simp
  · intro h1 h2
    simp [stepOp, h1, h2]
    cases op.finalizeErr <;> simp
  · intro e h1
    simp [stepOp, h1]
  · intro h1 h2 e h3
    simp [stepOp, h1, h2, h3]
  · intro h1 h2 h3 e h4
    simp [stepOp, h1, h2, h3, h4]

/-- Concrete application of the C1 lifecycle theorem: a plan of one
fully succeeding operation runs prepare, cert loading, execute and
finalize once each, in that order. -/
theorem engine_run_lifecycle_witness :
    (stepOp ⟨"opA", none, false, none, none, none⟩).1
      = [.prepareCall "opA", .loadCertsCall "opA", .executeCall "opA", .finalizeCall "opA"] :=
  (engine_run_lifecycle [] [] ⟨"opA", none, false, none, none, none⟩
    (by simp)).2.2.1 rfl rfl rfl rfl

/-- C2: target selection of `NMAUploadConfigOp.prepare` when no vdb node
info is available.  With a nil source host: prepare errors when
`hostsWithLatestCatalog` is empty; otherwise the target host set is
`destHosts` minus `hostsWithLatestCatalog` and `skipExecute` is set
exactly when that difference is empty.  With a non-nil source host the
target set is `destHosts` minus the source hosts. -/
theorem upload_prepare_target_selection
    (vdb : Option (List (String × VCoordinationNode)))
    (src : Option (List String)) (destHosts hostsWithLatestCatalog : List String)
    (upErr : Option String)
    (hvdb : vdbNodeInfoMissing vdb = true) :
    (src = none →
      (hostsWithLatestCatalog = [] →
        (nmaUploadConfigPrepare vdb src destHosts hostsWithLatestCatalog upErr).err
          = some "could not find at least one host with the latest catalog") ∧
      (hostsWithLatestCatalog ≠ [] →
        (nmaUploadConfigPrepare vdb src destHosts hostsWithLatestCatalog upErr).hosts
            = sliceDiff destHosts hostsWithLatestCatalog ∧
        ((nmaUploadConfigPrepare vdb src destHosts hostsWithLatestCatalog upErr).skipExecute
            = true ↔ sliceDiff destHosts hostsWithLatestCatalog = []))) ∧
    (∀ srcHosts, src = some srcHosts →
      (nmaUploadConfigPrepare vdb src destHosts hostsWithLatestCatalog upErr).hosts
        = sliceDiff destHosts srcHosts) := by
  constructor
  · intro hsrc
    subst hsrc
    constructor
    · intro hempty
      subst hempty
      simp [nmaUploadConfigPrepare, hvdb]
    · intro hne
      have hne2 : hostsWithLatestCatalog.isEmpty = false := by
        cases hostsWithLatestCatalog with
        | nil => simp at hne
        | cons a l => simp
      by_cases hdiff : (sliceDiff destHosts hostsWithLatestCatalog).isEmpty
      · constructor
        · simp [nmaUploadConfigPrepare, hvdb, hne2, hdiff]
        · simp only [List.isEmpty_iff] at hdiff
          simp [nmaUploadConfigPrepare, hvdb, hne2, hdiff]
      · have hdiff2 : (sliceDiff destHosts hostsWithLatestCatalog).isEmpty = false := by
          simp only [Bool.not_eq_true] at hdiff
          exact hdiff
        simp only [List.isEmpty_eq_false] at hdiff2
        constructor
        · cases upErr <;> simp [nmaUploadConfigPrepare, hvdb, hne2, hdiff2]
        · cases upErr <;> simp [nmaUploadConfigPrepare, hvdb, hne2, hdiff2]
  · intro srcHosts hsrc
    subst hsrc
    cases upErr <;> simp [nmaUploadConfigPrepare, hvdb]

/-- Concrete application of the C2 theorem: with hosts `a b`, the host
`b` already holding the latest catalog, the upload target set is `a`. -/
theorem upload_prepare_target_selection_witness :
    (nmaUploadConfigPrepare none none ["hostA", "hostB"] ["hostB"] none).hosts
      = sliceDiff ["hostA", "hostB"] ["hostB"] :=
  (((upload_prepare_target_selection none none ["hostA", "hostB"] ["hostB"] none
    rfl).1 rfl).2 (by decide)).1

/-- C4: `NMADownloadConfigOp.processResult`.  If some host passes, the
first passing host (in iteration order) has its response body bound into
`fileContent` and the operation returns nil, independently of any later
results; if no host passes, the operation returns the join of all
per-host errors together with the could-not-find-a-passing-host error,
and `fileContent` is left unchanged. -/
theorem download_processResult_first_passing_wins :
    (∀ (fc : String) (pre post : List (String × HostHTTPResult)) (h : String)
        (r : HostHTTPResult) (acc : List String),
      (∀ p ∈ pre, p.2.isPassing = false) → r.isPassing = true →
        downloadConfigProcessResult fc (pre ++ (h, r) :: post) acc = (r.content, [])) ∧
    (∀ (fc : String) (rs : List (String × HostHTTPResult)) (acc : List String),
      (∀ p ∈ rs, p.2.isPassing = false) →
        downloadConfigProcessResult fc rs acc
          = (fc, acc ++ (rs.map (fun p => p.2.err.toList)).flatten ++ [noPassingHostErr])) := by
  constructor
  · intro fc pre post h r acc hpre hr
    induction pre generalizing acc with
    | nil => simp [downloadConfigProcessResult, hr]
    | cons p pre ih =>
      have hp : p.2.isPassing = false := hpre p (by simp)
      have hrest : ∀ q ∈ pre, q.2.isPassing = false := fun q hq => hpre q (by simp [hq])
      obtain ⟨ph, pr⟩ := p
      simp [downloadConfigProcessResult, hp, ih (acc ++ pr.err.toList) hrest]
  · intro fc rs
    induction rs with
    | nil => simp [downloadConfigProcessResult]
    | cons p rest ih =>
      intro acc hall
      have hp : p.2.isPassing = false := hall p (by simp)
      have hrest : ∀ q ∈ rest, q.2.isPassing = false := fun q hq => hall q (by simp [hq])
      obtain ⟨ph, pr⟩ := p
      simp [downloadConfigProcessResult, hp, ih (acc ++ pr.err.toList) hrest]

/-- Concrete application of the C4 theorem: with a failing first host and
a passing second host, the passing body is bound and nil returned. -/
theorem download_processResult_first_passing_wins_witness :
    downloadConfigProcessResult "old"
      [("h1", ⟨ResultStatus.FAILURE, 500, "h1", "", some "boom"⟩),
       ("h2", ⟨ResultStatus.SUCCESS, 200, "h2", "conf-body", none⟩)] []
      = ("conf-body", []) :=
  download_processResult_first_passing_wins.1 "old"
    [("h1", ⟨ResultStatus.FAILURE, 500, "h1", "", some "boom"⟩)] []
    "h2" ⟨ResultStatus.SUCCESS, 200, "h2", "conf-body", none⟩ []
    (by decide) rfl

/-- C3: evaluation of `nmaSpreadSecurityOp.processResult` at a result
collection whose only host fails: the code joins the failing host error
into `allErrs` but then returns nil, so the operation reports success in
spite of the failing host — contradicting the all-targets-must-pass
error-join discipline the claim states. -/
theorem spread_security_processResult_drops_errors :
    nmaSpreadSecurityProcessResult (fun _ => none)
      [("h1", ⟨ResultStatus.FAILURE, 500, "h1", "", some "host h1 failed"⟩)] [] = none := rfl

/-- C5: in both `httpsCheckSubclusterOp.processResult` and
`httpsSandboxingOp.processResult`, the first result with an unauthorized
(401) status short-circuits: once processing reaches it (all earlier
results being failing, non-401 ones), the method returns exactly that
host error, ignoring any accumulated errors and any remaining results. -/
theorem unauthorized_result_short_circuits :
    (∀ (opName scName : String) (isSecondary : Bool) (ctlSetSize : Int)
        (parse : String → Except String ScInfo)
        (pre post : List (String × HostHTTPResult)) (host : String) (r : HostHTTPResult)
        (errAcc : Option String),
      (∀ p ∈ pre, p.2.isUnauthorizedRequest = false ∧ p.2.isPassing = false) →
      r.isUnauthorizedRequest = true →
        httpsCheckSubclusterProcessResult opName scName isSecondary ctlSetSize parse
          (pre ++ (host, r) :: post) errAcc = r.err) ∧
    (∀ (opName : String) (parse : String → Option String)
        (pre post : List (String × HostHTTPResult)) (host : String) (r : HostHTTPResult)
        (allErrs : List String),
      (∀ p ∈ pre, p.2.isUnauthorizedRequest = false ∧ p.2.isPassing = false) →
      r.isUnauthorizedRequest = true →
        httpsSandboxingProcessResult opName parse (pre ++ (host, r) :: post) allErrs
          = r.err.map (fun e => [e])) := by
  constructor
  · intro opName scName isSecondary ctlSetSize parse pre post host r errAcc hpre hr
    induction pre generalizing errAcc with
    | nil => simp [httpsCheckSubclusterProcessResult, hr]
    | cons p pre ih =>
      have hp := hpre p (by simp)
      have hrest : ∀ q ∈ pre, q.2.isUnauthorizedRequest = false ∧ q.2.isPassing = false :=
        fun q hq => hpre q (by simp [hq])
      obtain ⟨ph, pr⟩ := p
      simp only [List.cons_append, httpsCheckSubclusterProcessResult, hp.1, hp.2]
      simpa using ih pr.err hrest
  · intro opName parse pre post host r allErrs hpre hr
    induction pre generalizing allErrs with
    | nil => simp [httpsSandboxingProcessResult, hr]
    | cons p pre ih =>
      have hp := hpre p (by simp)
      have hrest : ∀ q ∈ pre, q.2.isUnauthorizedRequest = false ∧ q.2.isPassing = false :=
        fun q hq => hpre q (by simp [hq])
      obtain ⟨ph, pr⟩ := p
      simp only [List.cons_append, httpsSandboxingProcessResult, hp.1, hp.2]
      simpa using ih (allErrs ++ pr.err.toList) hrest

/-- Concrete application of the C5 theorem: a failing non-401 host
followed by a 401 host returns the 401 host error, with a further result
pending. -/
theorem unauthorized_result_short_circuits_witness :
    httpsCheckSubclusterProcessResult "HTTPSCheckSubclusterOp" "sc1" true 2
      (fun _ => Except.error "unused")
      [("h1", ⟨ResultStatus.FAILURE, 500, "h1", "", some "internal error"⟩),
       ("h2", ⟨ResultStatus.FAILURE, 401, "h2", "", some "Wrong password"⟩),
       ("h3", ⟨ResultStatus.SUCCESS, 200, "h3", "", none⟩)] none
      = some "Wrong password" :=
  unauthorized_result_short_circuits.1 "HTTPSCheckSubclusterOp" "sc1" true 2
    (fun _ => Except.error "unused")
    [("h1", ⟨ResultStatus.FAILURE, 500, "h1", "", some "internal error"⟩)]
    [("h3", ⟨ResultStatus.SUCCESS, 200, "h3", "", none⟩)]
    "h2" ⟨ResultStatus.FAILURE, 401, "h2", "", some "Wrong password"⟩ none
    (by decide) rfl

theorem hexEncodeToString_length (bytes : List (Fin 256)) :
    (hexEncodeToString bytes).length = 2 * bytes.length := by
  induction bytes with
  | nil => rfl
  | cons b rest ih =>
    simp only [hexEncodeToString, String.length] at ih ⊢
    simp [hexEncodeByte, List.flatten, ih]
    ring

theorem hexEncodeByte_mem (b : Fin 256) : ∀ c ∈ hexEncodeByte b, c ∈ hexDigitChars := by
  intro c hc
  have h1 : b.val / 16 < 16 := by omega
  have h2 : b.val % 16 < 16 := by omega
  have hall : ∀ k, k < 16 → hexDigitChars.getD k '0' ∈ hexDigitChars := by decide
  simp only [hexEncodeByte, List.mem_cons, List.not_mem_nil, or_false] at hc
  rcases hc with hc | hc
  · exact hc ▸ hall _ h1
  · exact hc ▸ hall _ h2

/-- C6: every spread key produced by `generateVerticaSpreadKey` is a
string of exactly 64 lowercase hexadecimal characters, and every key id
produced by `generateKeyID` has exactly 4 characters, each in the range
a-z or 0-9. -/
theorem spread_key_and_key_id_shape :
    (∀ randomBytes : Fin 32 → Fin 256,
      (generateVerticaSpreadKey randomBytes).length = 64 ∧
      ∀ c ∈ (generateVerticaSpreadKey randomBytes).toList, c ∈ hexDigitChars) ∧
    (∀ picks : Fin 4 → Fin 36,
      (generateKeyID picks).length = 4 ∧
      ∀ c ∈ (generateKeyID picks).toList,
        (('a' ≤ c ∧ c ≤ 'z') ∨ ('0' ≤ c ∧ c ≤ '9'))) := by
  constructor
  · intro randomBytes
    constructor
    · rw [generateVerticaSpreadKey, hexEncodeToString_length]
      simp
    · intro c hc
      simp only [generateVerticaSpreadKey, hexEncodeToString, String.toList,
        List.mem_flatten, List.mem_map] at hc
      obtain ⟨l, ⟨b, _, hb⟩, hcl⟩ := hc
      exact hexEncodeByte_mem b c (hb ▸ hcl)
  · intro picks
    constructor
    · simp [generateKeyID, String.length]
    · intro c hc
      have hall : ∀ k, k < 36 →
          (('a' ≤ availChars.getD k 'a' ∧ availChars.getD k 'a' ≤ 'z') ∨
           ('0' ≤ availChars.getD k 'a' ∧ availChars.getD k 'a' ≤ '9')) := by decide
      simp only [generateKeyID, String.toList, List.mem_map] at hc
      obtain ⟨i, _, hi⟩ := hc
      exact hi ▸ hall i.val i.isLt

/-- C7: evaluation showing spread key material reaching the logs.  The
spread-security setup logs a string containing the security details (for
any host the payload-setup log carries them verbatim), and the upload
setup in `encryptSpread` mode logs the modified file content, which
contains the spread-key payload — so key material is not redacted on
these log paths, contradicting the claim. -/
theorem setup_request_body_logs_key_material :
    ((nmaSpreadSecuritySetupRequestBody "NMASpreadSecurityOp" "SECRETDETAILS"
        (fun p => p) ["h1"] [("h1", "/catalog/path")]).2.any
      (fun s => containsSubstring s "SECRETDETAILS") = true) ∧
    ((nmaUploadConfigSetupRequestBody ["h1"] [("h1", "/catalog/path")] "conf"
        true).2.2.any
      (fun s => containsSubstring s spreadKeyPayload) = true) := by
  constructor
  · rfl
  · rfl

theorem addNode_preserves_invariant (vdb : VCoordinationDatabase)
    (vnode : VCoordinationNode) (hinv : vdbAddressInvariant vdb) :
    vdbAddressInvariant (vdb.addNode vnode).1 := by
  obtain ⟨h1, h2, h3⟩ := hinv
  by_cases hmem : vnode.address ∈ vdb.hostNodeMap.map Prod.fst
  · simp [VCoordinationDatabase.addNode, hmem]
    exact ⟨h1, h2, h3⟩
  · have hnl : vnode.address ∉ vdb.hostList := fun h => hmem ((h3 _).mp h)
    refine ⟨?_, ?_, ?_⟩
    · simp [VCoordinationDatabase.addNode, hmem, List.nodup_append, h1, hnl]
    · simp [VCoordinationDatabase.addNode, hmem, List.nodup_append, h2]
    · intro a
      simp [VCoordinationDatabase.addNode, hmem, h3 a]

theorem addHostsLoop_preserves_invariant (scName dbName : String)
    (totalHostCount : Nat) (hosts : List String) :
    ∀ (vdb : VCoordinationDatabase) (nodeNameToHost : List (String × String)),
      vdbAddressInvariant vdb →
      vdbAddressInvariant (addHostsLoop scName dbName totalHostCount vdb
        nodeNameToHost hosts).1 := by
  induction hosts with
  | nil =>
    intro vdb m hinv
    simpa [addHostsLoop] using hinv
  | cons host rest ih =>
    intro vdb m hinv
    cases hname : genVNodeName m dbName totalHostCount with
    | none =>
      simp only [addHostsLoop, hname]
      exact hinv
    | some nodeName =>
      rcases hadd : vdb.addNode ⟨host, nodeName, scName⟩ with ⟨vdb2, err⟩
      have hinv2 : vdbAddressInvariant vdb2 := by
        have := addNode_preserves_invariant vdb ⟨host, nodeName, scName⟩ hinv
        rw [hadd] at this
        exact this
      cases err with
      | none =>
        simp only [addHostsLoop, hname, hadd]
        exact ih vdb2 (m ++ [(nodeName, host)]) hinv2
      | some e =>
        simp only [addHostsLoop, hname, hadd]
        exact hinv2

/-- C9: `addNode` and `addHosts` preserve the vdb invariant that the
ordered host list and the key set of the node map hold exactly the same
addresses with no duplicates; and `addNode` returns an error — with the
vdb unchanged — when the address is already a key of the node map. -/
theorem vdb_addNode_addHosts_invariant (vdb : VCoordinationDatabase)
    (hinv : vdbAddressInvariant vdb) :
    (∀ vnode, vdbAddressInvariant (vdb.addNode vnode).1) ∧
    (∀ vnode, vnode.address ∈ vdb.hostNodeMap.map Prod.fst →
        vdb.addNode vnode
          = (vdb, some ("host " ++ vnode.address ++
              " has already been in the VDB HostList"))) ∧
    (∀ hosts scName, vdbAddressInvariant (vdb.addHosts hosts scName).1) := by
  refine ⟨?_, ?_, ?_⟩
  · intro vnode
    exact addNode_preserves_invariant vdb vnode hinv
  · intro vnode hmem
    simp [VCoordinationDatabase.addNode, hmem]
  · intro hosts scName
    exact addHostsLoop_preserves_invariant scName vdb.name
      (hosts.length + vdb.hostList.length) hosts vdb vdb.genNodeNameToHostMap hinv

/-- Concrete application of the C9 theorem: adding two hosts to a
one-node database keeps the host list and the map keys in sync. -/
theorem vdb_addNode_addHosts_invariant_witness :
    vdbAddressInvariant
      ((VCoordinationDatabase.mk "db" [("h1", ⟨"h1", "v_db_node0001", "sc"⟩)]
        ["h1"]).addHosts ["h2", "h3"] "sc").1 :=
  (vdb_addNode_addHosts_invariant
    (VCoordinationDatabase.mk "db" [("h1", ⟨"h1", "v_db_node0001", "sc"⟩)] ["h1"])
    (by
      refine ⟨by simp, by simp, ?_⟩
      intro a
      simp)).2.2 ["h2", "h3"] "sc"

/-- Concrete application of the C6 theorem: the all-zero byte draw gives
a 64-character key whose first character is a hex digit, and the all-zero
index draw gives a key id whose character a is in the allowed ranges. -/
theorem spread_key_and_key_id_shape_witness :
    (generateVerticaSpreadKey (fun _ => (0 : Fin 256))).length = 64 ∧
    '0' ∈ hexDigitChars ∧
    (('a' ≤ 'a' ∧ 'a' ≤ 'z') ∨ ('0' ≤ 'a' ∧ 'a' ≤ '9')) :=
  ⟨(spread_key_and_key_id_shape.1 (fun _ => (0 : Fin 256))).1,
   (spread_key_and_key_id_shape.1 (fun _ => (0 : Fin 256))).2 '0' (by decide),
   (spread_key_and_key_id_shape.2 (fun _ => (0 : Fin 36))).2 'a' (by decide)⟩
